import Mathlib

set_option maxHeartbeats 1000000

/-! Shallow embedding of the Magic Transporter allocation-and-lifecycle engine.

Sources embedded (authoritative versions, matching the cited line numbers):
* `src/types/enums.ts` — `QuestState`
* `src/models/magic-item.model.ts`, `src/models/magic-mover.model.ts`,
  `src/models/activity-log.model.ts` — the persisted shapes; documents are kept
  in association lists keyed by a `Nat` id, list order = Mongo natural
  (insertion) order; Mongo `createdAt` timestamps are represented by list
  position (logs are appended at creation time).
  The mover schema file shipped in the dump is an earlier revision without the
  `currentWeight` field; the repository layer (`$inc: { currentWeight }`,
  `$expr` guard), the service, the README schema and the swagger docs all use
  `currentWeight` (default 0), so the embedded `MagicMover` carries it.
* `src/repositories/item.repository.ts`, `src/repositories/mover.repository.ts`,
  `src/repositories/log.repository.ts` — store primitives.
* `src/services/mover.service.ts` — `loadItems`, `startMission`, `endMission`.

Item weights are JS numbers that the engine only ever adds and compares with
`≤`; they are embedded as `Int`, which carries both operations (no claim
depends on fractional weight values).
-/

/-- `QuestState` from `src/types/enums.ts`: RESTING | LOADING | ON_MISSION. -/
inductive QuestState where
  | resting
  | loading
  | onMission
deriving DecidableEq

/-- A Magic Item document: `name`, `weight`, nullable `assignedTo` holder
reference (`src/models/magic-item.model.ts`). -/
structure MagicItem where
  name : String
  weight : Int
  assignedTo : Option Nat
deriving DecidableEq

/-- A Magic Mover document: `weightLimit`, `currentWeight`, `questState`,
`items` (list of item ids), `missionsCompleted`. -/
structure MagicMover where
  weightLimit : Int
  currentWeight : Int
  questState : QuestState
  items : List Nat
  missionsCompleted : Nat
deriving DecidableEq

/-- An activity-log document: mover reference, logged action, items snapshot
(`src/models/activity-log.model.ts`). -/
structure ActivityLog where
  moverId : Nat
  action : QuestState
  items : List Nat
deriving DecidableEq

/-- The whole data store: the three Mongo collections, as association lists
keyed by document id (keys are unique in any well-formed store). -/
structure Store where
  items : List (Nat × MagicItem)
  movers : List (Nat × MagicMover)
  logs : List ActivityLog
deriving DecidableEq

/-- `MagicItem.findById`: first document with the given key. -/
def itemById (s : Store) (id : Nat) : Option MagicItem :=
  (s.items.find? (fun p => p.1 == id)).map (fun p => p.2)

/-- The holder (`assignedTo`) of an item id: `none` when the document is
missing, `some h` when it exists with holder field `h`. -/
def holderOf (s : Store) (id : Nat) : Option (Option Nat) :=
  (itemById s id).map (fun it => it.assignedTo)

/-- Weight of the item document with the given id (0 when absent; used only
where the document is known to exist). -/
def itemWeight (s : Store) (id : Nat) : Int :=
  ((itemById s id).map (fun it => it.weight)).getD 0

/-- Σ weight over a list of item ids, reading the current store. -/
def heldWeight (s : Store) (ids : List Nat) : Int :=
  (ids.map (itemWeight s)).sum

namespace ItemRepository

/-- `ItemRepository.findByIds`: `MagicItem.find({_id: {$in: ids}})`, in store
(natural) order. -/
def findByIds (s : Store) (ids : List Nat) : List (Nat × MagicItem) :=
  s.items.filter (fun p => ids.contains p.1)

/-- `ItemRepository.findAvailableByIds`:
`MagicItem.find({_id: {$in: ids}, assignedTo: null})`. -/
def findAvailableByIds (s : Store) (ids : List Nat) : List (Nat × MagicItem) :=
  s.items.filter (fun p => ids.contains p.1 && p.2.assignedTo == none)

/-- `ItemRepository.assignToMover`: atomic
`updateMany({_id: {$in: ids}, assignedTo: null}, {$set: {assignedTo: moverId}})`;
returns the updated store and `modifiedCount` (every matched document is
modified, since its holder goes from null to `moverId`). -/
def assignToMover (s : Store) (ids : List Nat) (moverId : Nat) : Store × Nat :=
  ({ s with items := s.items.map (fun p =>
      if ids.contains p.1 && p.2.assignedTo == none
      then (p.1, { p.2 with assignedTo := some moverId }) else p) },
   (findAvailableByIds s ids).length)

/-- `ItemRepository.unassignItems`: `updateMany({_id: {$in: itemIds}},
{$set: {assignedTo: null}})` — note: no holder filter, it clears the holder of
every listed id regardless of who holds it. `modifiedCount` counts documents
whose holder actually changed. -/
def unassignItems (s : Store) (itemIds : List Nat) : Store × Nat :=
  ({ s with items := s.items.map (fun p =>
      if itemIds.contains p.1 then (p.1, { p.2 with assignedTo := none }) else p) },
   (s.items.filter (fun p => itemIds.contains p.1 && !(p.2.assignedTo == none))).length)

/-- `ItemRepository.unassignFromMover`: `updateMany({assignedTo: moverId},
{$set: {assignedTo: null}})`. -/
def unassignFromMover (s : Store) (moverId : Nat) : Store × Nat :=
  ({ s with items := s.items.map (fun p =>
      if p.2.assignedTo == some moverId then (p.1, { p.2 with assignedTo := none }) else p) },
   (s.items.filter (fun p => p.2.assignedTo == some moverId)).length)

end ItemRepository

namespace MoverRepository

/-- `MoverRepository.findById` (document part; see `populatedItemIds` for the
`populate("items")` effect on the `items` array). -/
def findById (s : Store) (id : Nat) : Option MagicMover :=
  (s.movers.find? (fun p => p.1 == id)).map (fun p => p.2)

/-- The ids seen by the service in a populated `mover.items` array: mongoose
`populate` resolves each referenced id to its document and drops references
that no longer resolve, so mapping the populated array back to ids yields the
stored ids filtered to those that still exist. -/
def populatedItemIds (s : Store) (m : MagicMover) : List Nat :=
  m.items.filter (fun id => (itemById s id).isSome)

/-- Replace the mover document with the given key. -/
def updateMover (s : Store) (id : Nat) (m' : MagicMover) : Store :=
  { s with movers := s.movers.map (fun p => if p.1 == id then (id, m') else p) }

/-- `$addToSet: { items: { $each: itemIds } }`: append each id not already
present, in order. -/
def addToSet (xs : List Nat) (ys : List Nat) : List Nat :=
  ys.foldl (fun acc y => if acc.contains y then acc else acc ++ [y]) xs

/-- `MoverRepository.loadItems`: atomic
`findOneAndUpdate({_id: id, $expr: {$lte: [{$add: ["$currentWeight", totalWeight]}, weightLimit]}},
{$addToSet: {items: {$each: itemIds}}, $inc: {currentWeight: totalWeight}, $set: {questState: LOADING}},
{returnDocument: "after"})`; `none` when the document is missing or the weight
guard fails. -/
def loadItems (s : Store) (id : Nat) (itemIds : List Nat)
    (totalWeight weightLimit : Int) : Store × Option MagicMover :=
  match findById s id with
  | none => (s, none)
  | some m =>
    if m.currentWeight + totalWeight ≤ weightLimit then
      let m' : MagicMover :=
        { m with
          items := addToSet m.items itemIds
          currentWeight := m.currentWeight + totalWeight
          questState := QuestState.loading }
      (updateMover s id m', some m')
    else (s, none)

/-- `MoverRepository.startMission`: `findByIdAndUpdate(id,
{$set: {questState: ON_MISSION}}, {returnDocument: "after"})`. -/
def startMission (s : Store) (id : Nat) : Store × Option MagicMover :=
  match findById s id with
  | none => (s, none)
  | some m =>
    let m' : MagicMover := { m with questState := QuestState.onMission }
    (updateMover s id m', some m')

/-- `MoverRepository.endMission`: `findByIdAndUpdate(id,
{$set: {items: [], questState: RESTING, currentWeight: 0},
$inc: {missionsCompleted: 1}}, {returnDocument: "after"})`. -/
def endMission (s : Store) (id : Nat) : Store × Option MagicMover :=
  match findById s id with
  | none => (s, none)
  | some m =>
    let m' : MagicMover :=
      { m with
        items := []
        questState := QuestState.resting
        currentWeight := 0
        missionsCompleted := m.missionsCompleted + 1 }
    (updateMover s id m', some m')

end MoverRepository

namespace LogRepository

/-- `LogRepository.create(moverId, action, items)`: appends one immutable
activity-log document (`ActivityLog.create({moverId, action, items})`); the
`items` parameter of the TS method defaults to `[]` when the caller omits it. -/
def create (s : Store) (moverId : Nat) (action : QuestState) (items : List Nat) : Store :=
  { s with logs := s.logs ++ [{ moverId := moverId, action := action, items := items }] }

end LogRepository

/-- The error taxonomy thrown by `MoverService`
(`src/errors`): each constructor is one error class. -/
inductive AppError where
  | notFound
  | badRequest
  | conflict
  | unprocessableEntity
  | internal
deriving DecidableEq

namespace MoverService

/-- `MoverService.loadItems(moverId, itemIds)` from
`src/services/mover.service.ts` (lines 60–115), returning the final store
together with the thrown error or the returned mover. The duplicate check
compares `[...new Set(itemIds)].length` with `itemIds.length`; only the length
of the deduplicated list is used, so `List.dedup` is a faithful stand-in. -/
def loadItems (s : Store) (moverId : Nat) (itemIds : List Nat) :
    Store × Except AppError MagicMover :=
  match MoverRepository.findById s moverId with
  | none => (s, .error .notFound)
  | some mover =>
    if mover.questState = QuestState.onMission then
      (s, .error .badRequest)
    else if itemIds.dedup.length ≠ itemIds.length then
      (s, .error .unprocessableEntity)
    else
      let availableItems := ItemRepository.findAvailableByIds s itemIds
      if availableItems.length ≠ itemIds.length then
        if (ItemRepository.findByIds s itemIds).length ≠ itemIds.length then
          (s, .error .notFound)
        else
          (s, .error .conflict)
      else
        let newWeight := (availableItems.map (fun p => p.2.weight)).sum
        let claim := ItemRepository.assignToMover s itemIds moverId
        if claim.2 ≠ itemIds.length then
          ((ItemRepository.unassignItems claim.1 itemIds).1, .error .conflict)
        else
          match MoverRepository.loadItems claim.1 moverId itemIds newWeight
              mover.weightLimit with
          | (s2, none) =>
            ((ItemRepository.unassignItems s2 itemIds).1, .error .badRequest)
          | (s2, some updatedMover) =>
            (LogRepository.create s2 moverId QuestState.loading itemIds,
             .ok updatedMover)

/-- `MoverService.startMission(moverId)` (lines 126–152). The item ids logged
are mapped from the populated `mover.items` array read before the update. The
TS code dereferences the repository result with a non-null assertion
(`updatedMover!`); that branch is unreachable because the mover was just found,
and is modelled as an internal error. -/
def startMission (s : Store) (moverId : Nat) : Store × Except AppError MagicMover :=
  match MoverRepository.findById s moverId with
  | none => (s, .error .notFound)
  | some mover =>
    if mover.questState = QuestState.onMission then
      (s, .error .badRequest)
    else if mover.questState ≠ QuestState.loading then
      (s, .error .badRequest)
    else if (MoverRepository.populatedItemIds s mover).length = 0 then
      (s, .error .badRequest)
    else
      match MoverRepository.startMission s moverId with
      | (s1, some updatedMover) =>
        (LogRepository.create s1 moverId QuestState.onMission
          (MoverRepository.populatedItemIds s mover), .ok updatedMover)
      | (s1, none) => (s1, .error .internal)

/-- `MoverService.endMission(moverId)` (lines 164–192). Note the last step: the
TS code calls `logRepository.create(moverId, QuestState.RESTING)` with no
third argument, so the repository default `[]` is recorded as the snapshot. -/
def endMission (s : Store) (moverId : Nat) : Store × Except AppError MagicMover :=
  match MoverRepository.findById s moverId with
  | none => (s, .error .notFound)
  | some mover =>
    if mover.questState ≠ QuestState.onMission then
      (s, .error .badRequest)
    else
      let itemIds := MoverRepository.populatedItemIds s mover
      if 0 < itemIds.length ∧ (ItemRepository.findByIds s itemIds).length ≠ itemIds.length then
        (s, .error .internal)
      else
        let s1 := (ItemRepository.unassignFromMover s moverId).1
        match MoverRepository.endMission s1 moverId with
        | (s2, some updatedMover) =>
          (LogRepository.create s2 moverId QuestState.resting [], .ok updatedMover)
        | (s2, none) => (s2, .error .internal)

end MoverService

/-! ### Interleaved execution of concurrent `loadItems` calls

`MoverService.loadItems` suspends at every awaited store access; between two
accesses other concurrent calls may run. The program counter below has one
state per atomic store access of the TS method (pure computations are bundled
with the adjacent access, as they cannot be observed from outside), and
`stepLoad` executes exactly one access. A schedule interleaves the steps of
several in-flight calls against the shared store. -/

deriving instance DecidableEq for Except

/-- Program counter of one in-flight `MoverService.loadItems` call, carrying
the values the TS code holds in local variables across `await` points. -/
inductive LoadPC where
  /-- about to `await moverRepository.findById(moverId)` -/
  | atFindMover
  /-- about to `await itemRepository.findAvailableByIds(itemIds)` -/
  | atFindAvailable (mover : MagicMover)
  /-- availability precheck failed; about to `await itemRepository.findByIds(itemIds)` -/
  | atFindAll (mover : MagicMover)
  /-- about to `await itemRepository.assignToMover(itemIds, moverId)` -/
  | atClaim (mover : MagicMover) (newWeight : Int)
  /-- claim count mismatch; about to `await itemRepository.unassignItems(itemIds)` then throw Conflict -/
  | atRollbackClaim
  /-- about to `await moverRepository.loadItems(...)` (the capacity-checked commit) -/
  | atCommit (mover : MagicMover) (newWeight : Int)
  /-- commit guard failed; about to `await itemRepository.unassignItems(itemIds)` then throw BadRequest -/
  | atRollbackCommit
  /-- about to `await logRepository.create(moverId, LOADING, itemIds)` -/
  | atLog (updatedMover : MagicMover)
  /-- the call returned or threw -/
  | done (result : Except AppError MagicMover)
deriving DecidableEq

/-- Execute the next atomic store access of one `loadItems` call; each branch
mirrors the corresponding lines of `MoverService.loadItems`. -/
def stepLoad (s : Store) (moverId : Nat) (itemIds : List Nat) (pc : LoadPC) :
    Store × LoadPC :=
  match pc with
  | .atFindMover =>
    match MoverRepository.findById s moverId with
    | none => (s, .done (.error .notFound))
    | some mover =>
      if mover.questState = QuestState.onMission then
        (s, .done (.error .badRequest))
      else if itemIds.dedup.length ≠ itemIds.length then
        (s, .done (.error .unprocessableEntity))
      else (s, .atFindAvailable mover)
  | .atFindAvailable mover =>
    let availableItems := ItemRepository.findAvailableByIds s itemIds
    if availableItems.length ≠ itemIds.length then (s, .atFindAll mover)
    else (s, .atClaim mover ((availableItems.map (fun p => p.2.weight)).sum))
  | .atFindAll _ =>
    if (ItemRepository.findByIds s itemIds).length ≠ itemIds.length then
      (s, .done (.error .notFound))
    else (s, .done (.error .conflict))
  | .atClaim mover newWeight =>
    let claim := ItemRepository.assignToMover s itemIds moverId
    if claim.2 ≠ itemIds.length then (claim.1, .atRollbackClaim)
    else (claim.1, .atCommit mover newWeight)
  | .atRollbackClaim =>
    ((ItemRepository.unassignItems s itemIds).1, .done (.error .conflict))
  | .atCommit mover newWeight =>
    match MoverRepository.loadItems s moverId itemIds newWeight mover.weightLimit with
    | (s1, none) => (s1, .atRollbackCommit)
    | (s1, some updatedMover) => (s1, .atLog updatedMover)
  | .atRollbackCommit =>
    ((ItemRepository.unassignItems s itemIds).1, .done (.error .badRequest))
  | .atLog updatedMover =>
    (LogRepository.create s moverId QuestState.loading itemIds, .done (.ok updatedMover))
  | .done r => (s, .done r)

/-- One in-flight `loadItems(moverId, itemIds)` call together with its
progress. -/
structure LoadThread where
  moverId : Nat
  itemIds : List Nat
  pc : LoadPC
deriving DecidableEq

/-- Run one step of the i-th thread against the shared store. -/
def stepThread (s : Store) (t : LoadThread) : Store × LoadThread :=
  let r := stepLoad s t.moverId t.itemIds t.pc
  (r.1, { t with pc := r.2 })

/-- Run a schedule: each entry names the thread that performs its next atomic
store access (out-of-range entries are no-ops). -/
def runSchedule (s : Store) (ts : List LoadThread) (sched : List Nat) :
    Store × List LoadThread :=
  sched.foldl
    (fun acc i =>
      match acc.2[i]? with
      | none => acc
      | some t =>
        let r := stepThread acc.1 t
        (r.1, acc.2.set i r.2))
    (s, ts)

/-- Whether a call finished successfully (returned the updated mover). -/
def LoadPC.isSuccess : LoadPC → Bool
  | .done (.ok _) => true
  | _ => false

/-! ### Well-formedness of committed stores

The inductive invariant of the engine: unique document keys, and for every
carrier the spec's committed-state invariant together with the holder
back-reference consistency that makes it inductive. -/

/-- Per-carrier well-formedness: held ids are distinct, each held id resolves
to an item whose `assignedTo` points back at this carrier, `currentWeight`
equals the summed weight of the held items and respects the (schema-positive)
weight limit, and a RESTING carrier holds nothing. -/
def MoverOK (s : Store) (mid : Nat) (m : MagicMover) : Prop :=
  m.items.Nodup ∧
  (∀ id ∈ m.items, holderOf s id = some (some mid)) ∧
  m.currentWeight = heldWeight s m.items ∧
  m.currentWeight ≤ m.weightLimit ∧
  0 ≤ m.weightLimit ∧
  (m.questState = QuestState.resting → m.items = [])

/-- Store well-formedness: unique keys in both collections and every carrier
document is `MoverOK`. -/
def WF (s : Store) : Prop :=
  (s.items.map Prod.fst).Nodup ∧
  (s.movers.map Prod.fst).Nodup ∧
  ∀ p ∈ s.movers, MoverOK s p.1 p.2

/-- The invariant named by the spec over committed carrier states:
`currentLoad = Σ weight(heldItems)`, `currentLoad ≤ capacity`, and
`heldItems = []` whenever the state is RESTING. -/
def CarrierInv (s : Store) : Prop :=
  ∀ p ∈ s.movers,
    p.2.currentWeight = heldWeight s p.2.items ∧
    p.2.currentWeight ≤ p.2.weightLimit ∧
    (p.2.questState = QuestState.resting → p.2.items = [])

instance (s : Store) (mid : Nat) (m : MagicMover) : Decidable (MoverOK s mid m) := by
  unfold MoverOK
  exact inferInstance

instance (s : Store) : Decidable (WF s) := by
  unfold WF
  exact inferInstance

instance (s : Store) : Decidable (CarrierInv s) := by
  unfold CarrierInv
  exact inferInstance

/-! ### Concrete stores used as counterexamples and witnesses -/

/-- C1 failing input: carrier 1 is on a mission holding item 10. -/
def c1Store : Store :=
  { items := [(10, ⟨"Ring", 1, some 1⟩)]
    movers := [(1, ⟨100, 1, QuestState.onMission, [10], 0⟩)]
    logs := [] }

/-- C2 failing input: items 10 and 11 unheld; three resting carriers. -/
def c2Store : Store :=
  { items := [(10, ⟨"X", 1, none⟩), (11, ⟨"Y", 1, none⟩)]
    movers := [(1, ⟨10, 0, QuestState.resting, [], 0⟩),
               (2, ⟨10, 0, QuestState.resting, [], 0⟩),
               (3, ⟨10, 0, QuestState.resting, [], 0⟩)]
    logs := [] }

/-- C2 failing input: three concurrent `load` calls overlapping on item 10. -/
def c2Threads : List LoadThread :=
  [⟨1, [10], .atFindMover⟩, ⟨2, [10, 11], .atFindMover⟩, ⟨3, [10], .atFindMover⟩]

/-- C2 failing schedule: carrier 1 claims item 10; carrier 2's claim then
comes up short and its rollback releases item 10 (which it never claimed);
carrier 3 then claims item 10 again; both 1 and 3 commit. -/
def c2Sched : List Nat := [0, 1, 0, 1, 0, 1, 1, 2, 2, 2, 0, 0, 2, 2]

/-- C8 counterexample input: carrier 1 is on a mission holding item 10, and a
load request repeats id 10. -/
def c8Store : Store :=
  { items := [(10, ⟨"Gem", 1, some 1⟩)]
    movers := [(1, ⟨100, 1, QuestState.onMission, [10], 0⟩)]
    logs := [] }

/-- Witness store for the load-path claims: a resting carrier with capacity
100 and three unheld items (weights 15, 20 and 200). -/
def wLoadStore : Store :=
  { items := [(10, ⟨"Sword", 15, none⟩), (11, ⟨"Shield", 20, none⟩),
              (12, ⟨"Anvil", 200, none⟩)]
    movers := [(1, ⟨100, 0, QuestState.resting, [], 0⟩)]
    logs := [] }

/-- Witness store for the start-mission claim: carrier 1 is LOADING and holds
item 10 (weight 15). -/
def wStartStore : Store :=
  { items := [(10, ⟨"Sword", 15, some 1⟩)]
    movers := [(1, ⟨100, 15, QuestState.loading, [10], 0⟩)]
    logs := [] }

/-- Witness store for the end-mission claim: carrier 1 is ON_MISSION holding
items 10 and 11. -/
def wEndStore : Store :=
  { items := [(10, ⟨"Sword", 15, some 1⟩), (11, ⟨"Shield", 20, some 1⟩)]
    movers := [(1, ⟨100, 35, QuestState.onMission, [10, 11], 0⟩)]
    logs := [] }

/-- Witness store for the NotFound/Conflict claim: item 10 unheld, item 11
held by carrier 2; id 99 does not exist. -/
def wNineStore : Store :=
  { items := [(10, ⟨"Sword", 15, none⟩), (11, ⟨"Shield", 20, some 2⟩)]
    movers := [(1, ⟨100, 0, QuestState.resting, [], 0⟩),
               (2, ⟨100, 20, QuestState.loading, [11], 0⟩)]
    logs := [] }

/-! ### Association-list lookup lemmas -/

theorem find?_key_eq_of_mem {α : Type} {l : List (Nat × α)} {k : Nat} {v : α}
    (hmem : (k, v) ∈ l) (hnd : (l.map Prod.fst).Nodup) :
    l.find? (fun p => p.1 == k) = some (k, v) := by
  induction l with
  | nil => cases hmem
  | cons hd tl ih =>
    rw [List.map_cons, List.nodup_cons] at hnd
    rcases List.mem_cons.1 hmem with h | h
    · rw [← h]
      exact List.find?_cons_of_pos _ (by simp)
    · have hk : (hd.1 == k) = false := by
        refine beq_eq_false_iff_ne.2 (fun he => ?_)
        exact hnd.1 (he ▸ List.mem_map.2 ⟨(k, v), h, rfl⟩)
      rw [List.find?_cons_of_neg _ (by simp [hk]), ih h hnd.2]

theorem itemById_eq_of_mem {s : Store} {k : Nat} {v : MagicItem}
    (hmem : (k, v) ∈ s.items) (hnd : (s.items.map Prod.fst).Nodup) :
    itemById s k = some v := by
  unfold itemById
  rw [find?_key_eq_of_mem hmem hnd]
  rfl

theorem mem_of_itemById {s : Store} {k : Nat} {v : MagicItem}
    (h : itemById s k = some v) : (k, v) ∈ s.items := by
  unfold itemById at h
  cases hf : s.items.find? (fun p => p.1 == k) with
  | none => rw [hf] at h; cases h
  | some p =>
    rw [hf] at h
    have hmem := List.mem_of_find?_eq_some hf
    have h1 : p.1 = k := by simpa using List.find?_some hf
    have h2 : p.2 = v := by simpa using h
    have : p = (k, v) := by cases p; simp_all
    rwa [this] at hmem

theorem findById_eq_of_mem {s : Store} {k : Nat} {v : MagicMover}
    (hmem : (k, v) ∈ s.movers) (hnd : (s.movers.map Prod.fst).Nodup) :
    MoverRepository.findById s k = some v := by
  unfold MoverRepository.findById
  rw [find?_key_eq_of_mem hmem hnd]
  rfl

theorem mem_of_findById {s : Store} {k : Nat} {v : MagicMover}
    (h : MoverRepository.findById s k = some v) : (k, v) ∈ s.movers := by
  unfold MoverRepository.findById at h
  cases hf : s.movers.find? (fun p => p.1 == k) with
  | none => rw [hf] at h; cases h
  | some p =>
    rw [hf] at h
    have hmem := List.mem_of_find?_eq_some hf
    have h1 : p.1 = k := by simpa using List.find?_some hf
    have h2 : p.2 = v := by simpa using h
    have : p = (k, v) := by cases p; simp_all
    rwa [this] at hmem

/-! ### Duplicate detection: `[...new Set(ids)].length === ids.length` -/

theorem dedup_length_eq_iff {l : List Nat} : l.dedup.length = l.length ↔ l.Nodup := by
  constructor
  · intro h
    have := List.Sublist.eq_of_length (List.dedup_sublist l) h
    rw [← this]
    exact List.nodup_dedup l
  · intro h
    rw [List.dedup_eq_self.mpr h]

/-! ### Keyed filters: `find({_id: {$in: ids}, ...})` against a request list -/

theorem filter_keys_nodup {α : Type} (l : List (Nat × α))
    (hnd : (l.map Prod.fst).Nodup) (P : Nat × α → Bool) :
    ((l.filter P).map Prod.fst).Nodup :=
  List.Nodup.sublist (List.Sublist.map Prod.fst (List.filter_sublist l)) hnd

theorem filter_keys_subset {α : Type} (l : List (Nat × α)) (ids : List Nat)
    (P : Nat × α → Bool) (hkey : ∀ p ∈ l, P p = true → p.1 ∈ ids) :
    ((l.filter P).map Prod.fst) ⊆ ids := by
  intro x hx
  rcases List.mem_map.1 hx with ⟨p, hp, rfl⟩
  rcases List.mem_filter.1 hp with ⟨hpl, hP⟩
  exact hkey p hpl hP

theorem subset_filter_keys {α : Type} (l : List (Nat × α)) (ids : List Nat)
    (P : Nat × α → Bool)
    (hall : ∀ id ∈ ids, ∃ a, (id, a) ∈ l ∧ P (id, a) = true) :
    ids ⊆ (l.filter P).map Prod.fst := by
  intro id hid
  rcases hall id hid with ⟨a, hmem, hP⟩
  exact List.mem_map.2 ⟨(id, a), List.mem_filter.2 ⟨hmem, hP⟩, rfl⟩

theorem filter_keys_perm {α : Type} (l : List (Nat × α))
    (hnd : (l.map Prod.fst).Nodup) (ids : List Nat) (hids : ids.Nodup)
    (P : Nat × α → Bool)
    (hkey : ∀ p ∈ l, P p = true → p.1 ∈ ids)
    (hall : ∀ id ∈ ids, ∃ a, (id, a) ∈ l ∧ P (id, a) = true) :
    ((l.filter P).map Prod.fst).Perm ids :=
  List.Subperm.antisymm
    (List.Nodup.subperm (filter_keys_nodup l hnd P) (filter_keys_subset l ids P hkey))
    (List.Nodup.subperm hids (subset_filter_keys l ids P hall))

theorem filter_length_eq_iff {α : Type} (l : List (Nat × α))
    (hnd : (l.map Prod.fst).Nodup) (ids : List Nat) (hids : ids.Nodup)
    (P : Nat × α → Bool)
    (hkey : ∀ p ∈ l, P p = true → p.1 ∈ ids) :
    (l.filter P).length = ids.length ↔
      ∀ id ∈ ids, ∃ a, (id, a) ∈ l ∧ P (id, a) = true := by
  constructor
  · intro hlen id hid
    have hsp := List.Nodup.subperm (filter_keys_nodup l hnd P)
      (filter_keys_subset l ids P hkey)
    have hlen' : ids.length ≤ ((l.filter P).map Prod.fst).length := by
      rw [List.length_map, hlen]
    have hperm := List.Subperm.perm_of_length_le hsp hlen'
    have hmem : id ∈ (l.filter P).map Prod.fst := hperm.symm.subset hid
    rcases List.mem_map.1 hmem with ⟨p, hp, hfst⟩
    rcases List.mem_filter.1 hp with ⟨hpl, hP⟩
    have hpe : p = (id, p.2) := by cases p; simp_all
    exact ⟨p.2, hpe ▸ hpl, hpe ▸ hP⟩
  · intro hall
    have h := (filter_keys_perm l hnd ids hids P hkey hall).length_eq
    rwa [List.length_map] at h

/-! ### Characterizations of the item-repository reads -/

theorem findAvailableByIds_length_eq_iff {s : Store} {ids : List Nat}
    (hnd : (s.items.map Prod.fst).Nodup) (hids : ids.Nodup) :
    (ItemRepository.findAvailableByIds s ids).length = ids.length ↔
      ∀ id ∈ ids, holderOf s id = some none := by
  unfold ItemRepository.findAvailableByIds
  rw [filter_length_eq_iff s.items hnd ids hids _
    (fun p _ hP => by
      have hP' : ids.contains p.1 = true ∧ (p.2.assignedTo == none) = true := by
        simpa using hP
      exact List.elem_iff.1 hP'.1)]
  constructor
  · intro h id hid
    rcases h id hid with ⟨a, hmem, hP⟩
    have hno : a.assignedTo = none := by
      have hP' : ids.contains (id, a).1 = true ∧ ((id, a).2.assignedTo == none) = true := by
        simpa using hP
      simpa using hP'.2
    rw [holderOf, itemById_eq_of_mem hmem hnd]
    simp [hno]
  · intro h id hid
    have hh := h id hid
    unfold holderOf at hh
    cases hit : itemById s id with
    | none => rw [hit] at hh; cases hh
    | some it =>
      rw [hit] at hh
      have hno : it.assignedTo = none := by simpa using hh
      exact ⟨it, mem_of_itemById hit, by simp [hid, hno]⟩

theorem findByIds_length_eq_iff {s : Store} {ids : List Nat}
    (hnd : (s.items.map Prod.fst).Nodup) (hids : ids.Nodup) :
    (ItemRepository.findByIds s ids).length = ids.length ↔
      ∀ id ∈ ids, (itemById s id).isSome := by
  unfold ItemRepository.findByIds
  rw [filter_length_eq_iff s.items hnd ids hids _
    (fun p _ hP => List.elem_iff.1 hP)]
  constructor
  · intro h id hid
    rcases h id hid with ⟨a, hmem, _⟩
    rw [itemById_eq_of_mem hmem hnd]
    rfl
  · intro h id hid
    have hh := h id hid
    cases hit : itemById s id with
    | none => rw [hit] at hh; cases hh
    | some it =>
      exact ⟨it, mem_of_itemById hit, by simp [hid]⟩

theorem findAvailableByIds_keys_perm {s : Store} {ids : List Nat}
    (hnd : (s.items.map Prod.fst).Nodup) (hids : ids.Nodup)
    (hall : ∀ id ∈ ids, holderOf s id = some none) :
    ((ItemRepository.findAvailableByIds s ids).map Prod.fst).Perm ids := by
  unfold ItemRepository.findAvailableByIds
  refine filter_keys_perm s.items hnd ids hids _
    (fun p _ hP => by
      have hP' : ids.contains p.1 = true ∧ (p.2.assignedTo == none) = true := by
        simpa using hP
      exact List.elem_iff.1 hP'.1) ?_
  intro id hid
  have hh := hall id hid
  unfold holderOf at hh
  cases hit : itemById s id with
  | none => rw [hit] at hh; cases hh
  | some it =>
    rw [hit] at hh
    have hno : it.assignedTo = none := by simpa using hh
    exact ⟨it, mem_of_itemById hit, by simp [hid, hno]⟩

theorem findAvailableByIds_weight_sum {s : Store} {ids : List Nat}
    (hnd : (s.items.map Prod.fst).Nodup) (hids : ids.Nodup)
    (hall : ∀ id ∈ ids, holderOf s id = some none) :
    ((ItemRepository.findAvailableByIds s ids).map (fun p => p.2.weight)).sum =
      heldWeight s ids := by
  have hperm := findAvailableByIds_keys_perm hnd hids hall
  have hmapeq : (ItemRepository.findAvailableByIds s ids).map (fun p => p.2.weight)
      = ((ItemRepository.findAvailableByIds s ids).map Prod.fst).map (itemWeight s) := by
    rw [List.map_map]
    refine List.map_eq_map_iff.mpr (fun p hp => ?_)
    have hpl : p ∈ s.items := (List.mem_filter.1 hp).1
    have hmem : (p.1, p.2) ∈ s.items := by cases p; exact hpl
    have hps := itemById_eq_of_mem hmem hnd
    simp [Function.comp, itemWeight, hps]
  rw [hmapeq, heldWeight]
  exact (List.Perm.map (itemWeight s) hperm).sum_eq

/-! ### Reading through the store updates -/

theorem find?_map_keep_fst {α : Type} (l : List (Nat × α)) (f : Nat × α → α) (k : Nat) :
    (l.map (fun p => (p.1, f p))).find? (fun p => p.1 == k) =
      (l.find? (fun p => p.1 == k)).map (fun p => (p.1, f p)) := by
  induction l with
  | nil => rfl
  | cons hd tl ih =>
    rw [List.map_cons]
    cases h : hd.1 == k with
    | true => simp [List.find?_cons, h]
    | false => simp [List.find?_cons, h, ih]

theorem assignToMover_items_eq (s : Store) (ids : List Nat) (mid : Nat) :
    (ItemRepository.assignToMover s ids mid).1.items =
      s.items.map (fun p => (p.1,
        if ids.contains p.1 && p.2.assignedTo == none
        then { p.2 with assignedTo := some mid } else p.2)) := by
  show s.items.map _ = s.items.map _
  refine List.map_eq_map_iff.mpr (fun p _ => ?_)
  by_cases h : (ids.contains p.1 && p.2.assignedTo == none) = true
  · simp only [if_pos h]
  · simp only [if_neg h]

theorem unassignItems_items_eq (s : Store) (ids : List Nat) :
    (ItemRepository.unassignItems s ids).1.items =
      s.items.map (fun p => (p.1,
        if ids.contains p.1 then { p.2 with assignedTo := none } else p.2)) := by
  show s.items.map _ = s.items.map _
  refine List.map_eq_map_iff.mpr (fun p _ => ?_)
  by_cases h : ids.contains p.1 = true
  · simp only [if_pos h]
  · simp only [if_neg h]

theorem unassignFromMover_items_eq (s : Store) (mid : Nat) :
    (ItemRepository.unassignFromMover s mid).1.items =
      s.items.map (fun p => (p.1,
        if p.2.assignedTo == some mid then { p.2 with assignedTo := none } else p.2)) := by
  show s.items.map _ = s.items.map _
  refine List.map_eq_map_iff.mpr (fun p _ => ?_)
  by_cases h : (p.2.assignedTo == some mid) = true
  · simp only [if_pos h]
  · simp only [if_neg h]

theorem itemById_map_keep_fst (s : Store) (f : Nat × MagicItem → MagicItem) (k : Nat) :
    itemById { s with items := s.items.map (fun p => (p.1, f p)) } k =
      (s.items.find? (fun p => p.1 == k)).map f := by
  unfold itemById
  show ((s.items.map (fun p => (p.1, f p))).find? (fun p => p.1 == k)).map _ = _
  rw [find?_map_keep_fst]
  cases s.items.find? (fun p => p.1 == k) <;> rfl

theorem itemById_assignToMover (s : Store) (ids : List Nat) (mid id : Nat) :
    itemById (ItemRepository.assignToMover s ids mid).1 id =
      (itemById s id).map (fun it =>
        if ids.contains id && it.assignedTo == none
        then { it with assignedTo := some mid } else it) := by
  have h1 : (ItemRepository.assignToMover s ids mid).1 =
      { s with items := s.items.map (fun p => (p.1,
        (fun q => if ids.contains q.1 && q.2.assignedTo == none
          then { q.2 with assignedTo := some mid } else q.2) p)) } := by
    show ({ s with items := _ } : Store) = _
    rw [Store.mk.injEq]
    exact ⟨assignToMover_items_eq s ids mid, rfl, rfl⟩
  rw [h1, itemById_map_keep_fst]
  unfold itemById
  cases hf : s.items.find? (fun p => p.1 == id) with
  | none => rfl
  | some p =>
    have hk : p.1 = id := by simpa using List.find?_some hf
    simp [hk]

theorem itemById_unassignItems (s : Store) (ids : List Nat) (id : Nat) :
    itemById (ItemRepository.unassignItems s ids).1 id =
      (itemById s id).map (fun it =>
        if ids.contains id then { it with assignedTo := none } else it) := by
  have h1 : (ItemRepository.unassignItems s ids).1 =
      { s with items := s.items.map (fun p => (p.1,
        (fun q => if ids.contains q.1 then { q.2 with assignedTo := none } else q.2) p)) } := by
    show ({ s with items := _ } : Store) = _
    rw [Store.mk.injEq]
    exact ⟨unassignItems_items_eq s ids, rfl, rfl⟩
  rw [h1, itemById_map_keep_fst]
  unfold itemById
  cases hf : s.items.find? (fun p => p.1 == id) with
  | none => rfl
  | some p =>
    have hk : p.1 = id := by simpa using List.find?_some hf
    simp [hk]

theorem itemById_unassignFromMover (s : Store) (mid id : Nat) :
    itemById (ItemRepository.unassignFromMover s mid).1 id =
      (itemById s id).map (fun it =>
        if it.assignedTo == some mid then { it with assignedTo := none } else it) := by
  have h1 : (ItemRepository.unassignFromMover s mid).1 =
      { s with items := s.items.map (fun p => (p.1,
        (fun q => if q.2.assignedTo == some mid
          then { q.2 with assignedTo := none } else q.2) p)) } := by
    show ({ s with items := _ } : Store) = _
    rw [Store.mk.injEq]
    exact ⟨unassignFromMover_items_eq s mid, rfl, rfl⟩
  rw [h1, itemById_map_keep_fst]
  unfold itemById
  cases hf : s.items.find? (fun p => p.1 == id) with
  | none => rfl
  | some p => rfl

/-! ### Store projections unchanged by the individual updates -/

theorem assignToMover_movers (s : Store) (ids : List Nat) (mid : Nat) :
    (ItemRepository.assignToMover s ids mid).1.movers = s.movers := rfl

theorem assignToMover_logs (s : Store) (ids : List Nat) (mid : Nat) :
    (ItemRepository.assignToMover s ids mid).1.logs = s.logs := rfl

theorem unassignItems_movers (s : Store) (ids : List Nat) :
    (ItemRepository.unassignItems s ids).1.movers = s.movers := rfl

theorem unassignItems_logs (s : Store) (ids : List Nat) :
    (ItemRepository.unassignItems s ids).1.logs = s.logs := rfl

theorem unassignFromMover_movers (s : Store) (mid : Nat) :
    (ItemRepository.unassignFromMover s mid).1.movers = s.movers := rfl

theorem unassignFromMover_logs (s : Store) (mid : Nat) :
    (ItemRepository.unassignFromMover s mid).1.logs = s.logs := rfl

theorem updateMover_items (s : Store) (mid : Nat) (m' : MagicMover) :
    (MoverRepository.updateMover s mid m').items = s.items := rfl

theorem updateMover_logs (s : Store) (mid : Nat) (m' : MagicMover) :
    (MoverRepository.updateMover s mid m').logs = s.logs := rfl

theorem create_items (s : Store) (mid : Nat) (a : QuestState) (l : List Nat) :
    (LogRepository.create s mid a l).items = s.items := rfl

theorem create_movers (s : Store) (mid : Nat) (a : QuestState) (l : List Nat) :
    (LogRepository.create s mid a l).movers = s.movers := rfl

theorem create_logs (s : Store) (mid : Nat) (a : QuestState) (l : List Nat) :
    (LogRepository.create s mid a l).logs =
      s.logs ++ [{ moverId := mid, action := a, items := l }] := rfl

theorem findById_assignToMover (s : Store) (ids : List Nat) (mid k : Nat) :
    MoverRepository.findById (ItemRepository.assignToMover s ids mid).1 k =
      MoverRepository.findById s k := rfl

theorem findById_unassignItems (s : Store) (ids : List Nat) (k : Nat) :
    MoverRepository.findById (ItemRepository.unassignItems s ids).1 k =
      MoverRepository.findById s k := rfl

theorem findById_unassignFromMover (s : Store) (mid k : Nat) :
    MoverRepository.findById (ItemRepository.unassignFromMover s mid).1 k =
      MoverRepository.findById s k := rfl

theorem itemById_updateMover (s : Store) (mid : Nat) (m' : MagicMover) (k : Nat) :
    itemById (MoverRepository.updateMover s mid m') k = itemById s k := rfl

theorem itemById_create (s : Store) (mid : Nat) (a : QuestState) (l : List Nat) (k : Nat) :
    itemById (LogRepository.create s mid a l) k = itemById s k := rfl

/-! ### Holder, weight and existence through the item updates -/

theorem holderOf_assignToMover_mem {s : Store} {ids : List Nat} {mid id : Nat}
    (hid : id ∈ ids) (h : holderOf s id = some none) :
    holderOf (ItemRepository.assignToMover s ids mid).1 id = some (some mid) := by
  unfold holderOf at *
  rw [itemById_assignToMover]
  cases hit : itemById s id with
  | none => rw [hit] at h; cases h
  | some it =>
    rw [hit] at h
    have hno : it.assignedTo = none := by simpa using h
    simp [hid, hno]

theorem holderOf_assignToMover_not_mem {s : Store} {ids : List Nat} {mid id : Nat}
    (hid : id ∉ ids) :
    holderOf (ItemRepository.assignToMover s ids mid).1 id = holderOf s id := by
  unfold holderOf
  rw [itemById_assignToMover]
  cases hit : itemById s id with
  | none => rfl
  | some it => simp [hid]

theorem holderOf_assignToMover_held {s : Store} {ids : List Nat} {mid id : Nat} {h : Nat}
    (hheld : holderOf s id = some (some h)) :
    holderOf (ItemRepository.assignToMover s ids mid).1 id = holderOf s id := by
  unfold holderOf at *
  rw [itemById_assignToMover]
  cases hit : itemById s id with
  | none => rw [hit] at hheld; cases hheld
  | some it =>
    rw [hit] at hheld
    have hsome : it.assignedTo = some h := by simpa using hheld
    simp [hsome]

theorem holderOf_unassignItems_mem {s : Store} {ids : List Nat} {id : Nat}
    (hid : id ∈ ids) (hex : (itemById s id).isSome) :
    holderOf (ItemRepository.unassignItems s ids).1 id = some none := by
  unfold holderOf
  rw [itemById_unassignItems]
  cases hit : itemById s id with
  | none => rw [hit] at hex; cases hex
  | some it => simp [hid]

theorem holderOf_unassignFromMover {s : Store} {mid id : Nat} :
    holderOf (ItemRepository.unassignFromMover s mid).1 id =
      (holderOf s id).map (fun h => if h = some mid then none else h) := by
  unfold holderOf
  rw [itemById_unassignFromMover]
  cases hit : itemById s id with
  | none => rfl
  | some it =>
    by_cases h : it.assignedTo = some mid
    · simp [h]
    · simp [h]

theorem itemWeight_assignToMover (s : Store) (ids : List Nat) (mid id : Nat) :
    itemWeight (ItemRepository.assignToMover s ids mid).1 id = itemWeight s id := by
  unfold itemWeight
  rw [itemById_assignToMover]
  cases itemById s id with
  | none => rfl
  | some it =>
    show (if _ then _ else _ : MagicItem).weight = _
    split <;> rfl

theorem itemWeight_unassignFromMover (s : Store) (mid id : Nat) :
    itemWeight (ItemRepository.unassignFromMover s mid).1 id = itemWeight s id := by
  unfold itemWeight
  rw [itemById_unassignFromMover]
  cases itemById s id with
  | none => rfl
  | some it =>
    show (if _ then _ else _ : MagicItem).weight = _
    split <;> rfl

theorem heldWeight_assignToMover (s : Store) (ids : List Nat) (mid : Nat) (l : List Nat) :
    heldWeight (ItemRepository.assignToMover s ids mid).1 l = heldWeight s l := by
  unfold heldWeight
  rw [List.map_eq_map_iff.mpr (fun x _ => itemWeight_assignToMover s ids mid x)]

theorem heldWeight_unassignFromMover (s : Store) (mid : Nat) (l : List Nat) :
    heldWeight (ItemRepository.unassignFromMover s mid).1 l = heldWeight s l := by
  unfold heldWeight
  rw [List.map_eq_map_iff.mpr (fun x _ => itemWeight_unassignFromMover s mid x)]

theorem heldWeight_updateMover (s : Store) (mid : Nat) (m' : MagicMover) (l : List Nat) :
    heldWeight (MoverRepository.updateMover s mid m') l = heldWeight s l := rfl

theorem heldWeight_create (s : Store) (mid : Nat) (a : QuestState) (il l : List Nat) :
    heldWeight (LogRepository.create s mid a il) l = heldWeight s l := rfl

theorem isSome_itemById_assignToMover (s : Store) (ids : List Nat) (mid id : Nat) :
    (itemById (ItemRepository.assignToMover s ids mid).1 id).isSome =
      (itemById s id).isSome := by
  rw [itemById_assignToMover]
  cases itemById s id <;> rfl

theorem isSome_itemById_unassignFromMover (s : Store) (mid id : Nat) :
    (itemById (ItemRepository.unassignFromMover s mid).1 id).isSome =
      (itemById s id).isSome := by
  rw [itemById_unassignFromMover]
  cases itemById s id <;> rfl

/-! ### Keys unchanged by the updates -/

theorem assignToMover_item_keys (s : Store) (ids : List Nat) (mid : Nat) :
    (ItemRepository.assignToMover s ids mid).1.items.map Prod.fst =
      s.items.map Prod.fst := by
  rw [assignToMover_items_eq, List.map_map]
  rfl

theorem unassignItems_item_keys (s : Store) (ids : List Nat) :
    (ItemRepository.unassignItems s ids).1.items.map Prod.fst =
      s.items.map Prod.fst := by
  rw [unassignItems_items_eq, List.map_map]
  rfl

theorem unassignFromMover_item_keys (s : Store) (mid : Nat) :
    (ItemRepository.unassignFromMover s mid).1.items.map Prod.fst =
      s.items.map Prod.fst := by
  rw [unassignFromMover_items_eq, List.map_map]
  rfl

theorem updateMover_movers_eq (s : Store) (mid : Nat) (m' : MagicMover) :
    (MoverRepository.updateMover s mid m').movers =
      s.movers.map (fun p => (p.1, if p.1 == mid then m' else p.2)) := by
  show s.movers.map _ = s.movers.map _
  refine List.map_eq_map_iff.mpr (fun p _ => ?_)
  by_cases h : (p.1 == mid) = true
  · have hp : p.1 = mid := by simpa using h
    subst hp
    simp
  · simp only [if_neg h]

theorem updateMover_mover_keys (s : Store) (mid : Nat) (m' : MagicMover) :
    (MoverRepository.updateMover s mid m').movers.map Prod.fst =
      s.movers.map Prod.fst := by
  rw [updateMover_movers_eq, List.map_map]
  rfl

/-! ### `findById` through `updateMover` -/

theorem findById_updateMover_self {s : Store} {mid : Nat} {m m' : MagicMover}
    (h : MoverRepository.findById s mid = some m) :
    MoverRepository.findById (MoverRepository.updateMover s mid m') mid = some m' := by
  unfold MoverRepository.findById at *
  rw [updateMover_movers_eq]
  have hfix : (fun (p : Nat × MagicMover) => (p.1, if p.1 == mid then m' else p.2)) =
      (fun p => (p.1, (fun q : Nat × MagicMover => if q.1 == mid then m' else q.2) p)) := rfl
  rw [hfix, find?_map_keep_fst]
  cases hf : s.movers.find? (fun p => p.1 == mid) with
  | none => rw [hf] at h; cases h
  | some p =>
    have hk : p.1 = mid := by simpa using List.find?_some hf
    simp [hk]

theorem findById_updateMover_ne {s : Store} {mid k : Nat} {m' : MagicMover}
    (h : k ≠ mid) :
    MoverRepository.findById (MoverRepository.updateMover s mid m') k =
      MoverRepository.findById s k := by
  unfold MoverRepository.findById
  rw [updateMover_movers_eq]
  have hfix : (fun (p : Nat × MagicMover) => (p.1, if p.1 == mid then m' else p.2)) =
      (fun p => (p.1, (fun q : Nat × MagicMover => if q.1 == mid then m' else q.2) p)) := rfl
  rw [hfix, find?_map_keep_fst]
  cases hf : s.movers.find? (fun p => p.1 == k) with
  | none => rfl
  | some p =>
    have hk : p.1 = k := by simpa using List.find?_some hf
    have hp : p.1 ≠ mid := by rw [hk]; exact h
    simp [hp]

/-! ### `$addToSet` -/

theorem addToSet_mem (xs ys : List Nat) (x : Nat) :
    x ∈ MoverRepository.addToSet xs ys ↔ x ∈ xs ∨ x ∈ ys := by
  induction ys generalizing xs with
  | nil => simp [MoverRepository.addToSet]
  | cons y ys ih =>
    show x ∈ MoverRepository.addToSet (if xs.contains y then xs else xs ++ [y]) ys ↔ _
    rw [ih]
    by_cases h : xs.contains y = true
    · have hy : y ∈ xs := List.elem_iff.1 h
      simp only [if_pos h, List.mem_cons]
      constructor
      · rintro (hx | hx)
        · exact Or.inl hx
        · exact Or.inr (Or.inr hx)
      · rintro (hx | hx | hx)
        · exact Or.inl hx
        · exact Or.inl (hx ▸ hy)
        · exact Or.inr hx
    · simp only [if_neg h, List.mem_append, List.mem_singleton, List.mem_cons]
      tauto

theorem addToSet_nodup {xs ys : List Nat} (hxs : xs.Nodup) :
    (MoverRepository.addToSet xs ys).Nodup := by
  induction ys generalizing xs with
  | nil => exact hxs
  | cons y ys ih =>
    show (MoverRepository.addToSet (if xs.contains y then xs else xs ++ [y]) ys).Nodup
    by_cases h : xs.contains y = true
    · rw [if_pos h]; exact ih hxs
    · rw [if_neg h]
      refine ih ?_
      have hy : y ∉ xs := fun hm => h (List.elem_iff.2 hm)
      simp [List.nodup_append, hxs, hy]

theorem addToSet_eq_append {xs ys : List Nat} (hys : ys.Nodup)
    (hdisj : ∀ y ∈ ys, y ∉ xs) :
    MoverRepository.addToSet xs ys = xs ++ ys := by
  induction ys generalizing xs with
  | nil => simp [MoverRepository.addToSet]
  | cons y ys ih =>
    show MoverRepository.addToSet (if xs.contains y then xs else xs ++ [y]) ys = _
    have hy : y ∉ xs := hdisj y (List.mem_cons_self y ys)
    rw [if_neg (fun hc => hy (List.elem_iff.1 hc))]
    rw [List.nodup_cons] at hys
    rw [ih hys.2 (fun z hz => by
      simp only [List.mem_append, List.mem_singleton]
      rintro (hzx | hzy)
      · exact hdisj z (List.mem_cons_of_mem y hz) hzx
      · exact hys.1 (hzy ▸ hz))]
    simp

/-! ### Path lemmas for `MoverService.loadItems` -/

theorem loadItems_not_found {s : Store} {mid : Nat} {ids : List Nat}
    (h : MoverRepository.findById s mid = none) :
    MoverService.loadItems s mid ids = (s, .error .notFound) := by
  unfold MoverService.loadItems
  rw [h]

theorem loadItems_on_mission {s : Store} {mid : Nat} {ids : List Nat} {m : MagicMover}
    (hm : MoverRepository.findById s mid = some m)
    (hstate : m.questState = QuestState.onMission) :
    MoverService.loadItems s mid ids = (s, .error .badRequest) := by
  unfold MoverService.loadItems
  simp only [hm]
  rw [if_pos hstate]

theorem loadItems_duplicate {s : Store} {mid : Nat} {ids : List Nat} {m : MagicMover}
    (hm : MoverRepository.findById s mid = some m)
    (hstate : m.questState ≠ QuestState.onMission)
    (hdup : ¬ ids.Nodup) :
    MoverService.loadItems s mid ids = (s, .error .unprocessableEntity) := by
  unfold MoverService.loadItems
  simp only [hm]
  rw [if_neg hstate, if_pos (fun heq => hdup (dedup_length_eq_iff.1 heq))]

theorem loadItems_precheck_fail_store {s : Store} {mid : Nat} {ids : List Nat} {m : MagicMover}
    (hm : MoverRepository.findById s mid = some m)
    (hstate : m.questState ≠ QuestState.onMission)
    (hids : ids.Nodup)
    (hlen : (ItemRepository.findAvailableByIds s ids).length ≠ ids.length) :
    (MoverService.loadItems s mid ids).1 = s := by
  unfold MoverService.loadItems
  simp only [hm]
  rw [if_neg hstate, if_neg (not_not_intro (dedup_length_eq_iff.2 hids)), if_pos hlen]
  by_cases h2 : (ItemRepository.findByIds s ids).length ≠ ids.length
  · rw [if_pos h2]
  · rw [if_neg h2]

theorem loadItems_missing {s : Store} {mid : Nat} {ids : List Nat} {m : MagicMover}
    (hnd : (s.items.map Prod.fst).Nodup)
    (hm : MoverRepository.findById s mid = some m)
    (hstate : m.questState ≠ QuestState.onMission)
    (hids : ids.Nodup)
    (hmiss : ∃ id ∈ ids, itemById s id = none) :
    MoverService.loadItems s mid ids = (s, .error .notFound) := by
  have hlen : (ItemRepository.findAvailableByIds s ids).length ≠ ids.length := by
    intro heq
    have hall := (findAvailableByIds_length_eq_iff hnd hids).1 heq
    rcases hmiss with ⟨id, hid, hnone⟩
    have hh := hall id hid
    rw [holderOf, hnone] at hh
    cases hh
  have hlen2 : (ItemRepository.findByIds s ids).length ≠ ids.length := by
    intro heq
    have hex := (findByIds_length_eq_iff hnd hids).1 heq
    rcases hmiss with ⟨id, hid, hnone⟩
    have hh := hex id hid
    rw [hnone] at hh
    cases hh
  unfold MoverService.loadItems
  simp only [hm]
  rw [if_neg hstate, if_neg (not_not_intro (dedup_length_eq_iff.2 hids)), if_pos hlen,
    if_pos hlen2]

theorem loadItems_conflict {s : Store} {mid : Nat} {ids : List Nat} {m : MagicMover}
    (hnd : (s.items.map Prod.fst).Nodup)
    (hm : MoverRepository.findById s mid = some m)
    (hstate : m.questState ≠ QuestState.onMission)
    (hids : ids.Nodup)
    (hex : ∀ id ∈ ids, (itemById s id).isSome)
    (hheld : ∃ id ∈ ids, holderOf s id ≠ some none) :
    MoverService.loadItems s mid ids = (s, .error .conflict) := by
  have hlen : (ItemRepository.findAvailableByIds s ids).length ≠ ids.length := by
    intro heq
    have hall := (findAvailableByIds_length_eq_iff hnd hids).1 heq
    rcases hheld with ⟨id, hid, hne⟩
    exact hne (hall id hid)
  have hlen2 : (ItemRepository.findByIds s ids).length = ids.length :=
    (findByIds_length_eq_iff hnd hids).2 hex
  unfold MoverService.loadItems
  simp only [hm]
  rw [if_neg hstate, if_neg (not_not_intro (dedup_length_eq_iff.2 hids)), if_pos hlen,
    if_neg (not_not_intro hlen2)]

theorem loadItems_success_eq {s : Store} {mid : Nat} {ids : List Nat} {m : MagicMover}
    (hnd : (s.items.map Prod.fst).Nodup)
    (hm : MoverRepository.findById s mid = some m)
    (hstate : m.questState ≠ QuestState.onMission)
    (hids : ids.Nodup)
    (hall : ∀ id ∈ ids, holderOf s id = some none)
    (hcap : m.currentWeight + heldWeight s ids ≤ m.weightLimit) :
    MoverService.loadItems s mid ids =
      (LogRepository.create
        (MoverRepository.updateMover (ItemRepository.assignToMover s ids mid).1 mid
          { m with items := MoverRepository.addToSet m.items ids
                   currentWeight := m.currentWeight + heldWeight s ids
                   questState := QuestState.loading })
        mid QuestState.loading ids,
       .ok { m with items := MoverRepository.addToSet m.items ids
                    currentWeight := m.currentWeight + heldWeight s ids
                    questState := QuestState.loading }) := by
  have hlen : (ItemRepository.findAvailableByIds s ids).length = ids.length :=
    (findAvailableByIds_length_eq_iff hnd hids).2 hall
  have hw := findAvailableByIds_weight_sum hnd hids hall
  unfold MoverService.loadItems
  simp only [hm]
  rw [if_neg hstate, if_neg (not_not_intro (dedup_length_eq_iff.2 hids)),
    if_neg (not_not_intro hlen)]
  have hcl : (ItemRepository.assignToMover s ids mid).2 = ids.length := hlen
  rw [if_neg (not_not_intro hcl)]
  unfold MoverRepository.loadItems
  rw [findById_assignToMover, hw]
  simp only [hm]
  rw [if_pos hcap]

theorem loadItems_capacity_fail_eq {s : Store} {mid : Nat} {ids : List Nat} {m : MagicMover}
    (hnd : (s.items.map Prod.fst).Nodup)
    (hm : MoverRepository.findById s mid = some m)
    (hstate : m.questState ≠ QuestState.onMission)
    (hids : ids.Nodup)
    (hall : ∀ id ∈ ids, holderOf s id = some none)
    (hcap : ¬ (m.currentWeight + heldWeight s ids ≤ m.weightLimit)) :
    MoverService.loadItems s mid ids =
      ((ItemRepository.unassignItems (ItemRepository.assignToMover s ids mid).1 ids).1,
       .error .badRequest) := by
  have hlen : (ItemRepository.findAvailableByIds s ids).length = ids.length :=
    (findAvailableByIds_length_eq_iff hnd hids).2 hall
  have hw := findAvailableByIds_weight_sum hnd hids hall
  unfold MoverService.loadItems
  simp only [hm]
  rw [if_neg hstate, if_neg (not_not_intro (dedup_length_eq_iff.2 hids)),
    if_neg (not_not_intro hlen)]
  have hcl : (ItemRepository.assignToMover s ids mid).2 = ids.length := hlen
  rw [if_neg (not_not_intro hcl)]
  unfold MoverRepository.loadItems
  rw [findById_assignToMover, hw]
  simp only [hm]
  rw [if_neg hcap]

theorem unassign_assign_cancel {s : Store} {ids : List Nat} {mid : Nat}
    (hnd : (s.items.map Prod.fst).Nodup)
    (hall : ∀ id ∈ ids, holderOf s id = some none) :
    (ItemRepository.unassignItems (ItemRepository.assignToMover s ids mid).1 ids).1 = s := by
  have hitems :
      (ItemRepository.unassignItems (ItemRepository.assignToMover s ids mid).1 ids).1.items
        = s.items := by
    rw [unassignItems_items_eq, assignToMover_items_eq, List.map_map]
    have hid : ∀ p ∈ s.items, ((fun (p : Nat × MagicItem) =>
          (p.1, if ids.contains p.1 then { p.2 with assignedTo := none } else p.2)) ∘
        (fun (p : Nat × MagicItem) =>
          (p.1, if ids.contains p.1 && p.2.assignedTo == none
                then { p.2 with assignedTo := some mid } else p.2))) p = id p := by
      rintro ⟨k, n, w, a⟩ hp
      by_cases hin : ids.contains k = true
      · have hmem : k ∈ ids := List.elem_iff.1 hin
        have hbyid := itemById_eq_of_mem hp hnd
        have hh := hall k hmem
        rw [holderOf, hbyid] at hh
        have hno : a = none := by simpa using hh
        subst hno
        simp [Function.comp, hin, hmem]
      · have hnmem : k ∉ ids := fun hm => hin (List.elem_iff.2 hm)
        simp [Function.comp, hnmem]
    rw [List.map_eq_map_iff.mpr hid, List.map_id]
  have hrw : (ItemRepository.unassignItems (ItemRepository.assignToMover s ids mid).1 ids).1 =
      { s with items :=
        (ItemRepository.unassignItems (ItemRepository.assignToMover s ids mid).1 ids).1.items } := rfl
  rw [hrw, hitems]

/-! ### Path lemmas for `MoverService.startMission` and `MoverService.endMission` -/

theorem startMission_not_found {s : Store} {mid : Nat}
    (h : MoverRepository.findById s mid = none) :
    MoverService.startMission s mid = (s, .error .notFound) := by
  unfold MoverService.startMission
  rw [h]

theorem startMission_on_mission {s : Store} {mid : Nat} {m : MagicMover}
    (hm : MoverRepository.findById s mid = some m)
    (hstate : m.questState = QuestState.onMission) :
    MoverService.startMission s mid = (s, .error .badRequest) := by
  unfold MoverService.startMission
  simp only [hm]
  rw [if_pos hstate]

theorem startMission_not_loading {s : Store} {mid : Nat} {m : MagicMover}
    (hm : MoverRepository.findById s mid = some m)
    (h1 : m.questState ≠ QuestState.onMission)
    (h2 : m.questState ≠ QuestState.loading) :
    MoverService.startMission s mid = (s, .error .badRequest) := by
  unfold MoverService.startMission
  simp only [hm]
  rw [if_neg h1, if_pos h2]

theorem startMission_no_items {s : Store} {mid : Nat} {m : MagicMover}
    (hm : MoverRepository.findById s mid = some m)
    (hstate : m.questState = QuestState.loading)
    (hempty : MoverRepository.populatedItemIds s m = []) :
    MoverService.startMission s mid = (s, .error .badRequest) := by
  unfold MoverService.startMission
  simp only [hm]
  rw [if_neg (by rw [hstate]; intro h; cases h), if_neg (not_not_intro hstate),
    if_pos (by rw [hempty]; rfl)]

theorem startMission_success_eq {s : Store} {mid : Nat} {m : MagicMover}
    (hm : MoverRepository.findById s mid = some m)
    (hstate : m.questState = QuestState.loading)
    (hnonempty : MoverRepository.populatedItemIds s m ≠ []) :
    MoverService.startMission s mid =
      (LogRepository.create
        (MoverRepository.updateMover s mid { m with questState := QuestState.onMission })
        mid QuestState.onMission (MoverRepository.populatedItemIds s m),
       .ok { m with questState := QuestState.onMission }) := by
  unfold MoverService.startMission
  simp only [hm]
  rw [if_neg (by rw [hstate]; intro h; cases h), if_neg (not_not_intro hstate),
    if_neg (fun h0 => hnonempty (List.length_eq_zero.1 h0))]
  unfold MoverRepository.startMission
  simp only [hm]

theorem endMission_not_found {s : Store} {mid : Nat}
    (h : MoverRepository.findById s mid = none) :
    MoverService.endMission s mid = (s, .error .notFound) := by
  unfold MoverService.endMission
  rw [h]

theorem endMission_not_on_mission {s : Store} {mid : Nat} {m : MagicMover}
    (hm : MoverRepository.findById s mid = some m)
    (hstate : m.questState ≠ QuestState.onMission) :
    MoverService.endMission s mid = (s, .error .badRequest) := by
  unfold MoverService.endMission
  simp only [hm]
  rw [if_pos hstate]

theorem endMission_success_eq {s : Store} {mid : Nat} {m : MagicMover}
    (hm : MoverRepository.findById s mid = some m)
    (hstate : m.questState = QuestState.onMission)
    (hcheck : ¬ (0 < (MoverRepository.populatedItemIds s m).length ∧
      (ItemRepository.findByIds s (MoverRepository.populatedItemIds s m)).length ≠
        (MoverRepository.populatedItemIds s m).length)) :
    MoverService.endMission s mid =
      (LogRepository.create
        (MoverRepository.updateMover (ItemRepository.unassignFromMover s mid).1 mid
          { m with items := []
                   questState := QuestState.resting
                   currentWeight := 0
                   missionsCompleted := m.missionsCompleted + 1 })
        mid QuestState.resting [],
       .ok { m with items := []
                    questState := QuestState.resting
                    currentWeight := 0
                    missionsCompleted := m.missionsCompleted + 1 }) := by
  unfold MoverService.endMission
  simp only [hm]
  rw [if_neg (not_not_intro hstate), if_neg hcheck]
  unfold MoverRepository.endMission
  rw [findById_unassignFromMover]
  simp only [hm]

/-! ### Well-formedness accessors -/

theorem holderOf_isSome {s : Store} {id : Nat} {x : Option Nat}
    (h : holderOf s id = some x) : (itemById s id).isSome := by
  unfold holderOf at h
  cases hit : itemById s id with
  | none => rw [hit] at h; cases h
  | some it => rfl

theorem WF_moverOK {s : Store} {mid : Nat} {m : MagicMover}
    (hWF : WF s) (hm : MoverRepository.findById s mid = some m) :
    MoverOK s mid m :=
  hWF.2.2 (mid, m) (mem_of_findById hm)

theorem populatedItemIds_eq_of_moverOK {s : Store} {mid : Nat} {m : MagicMover}
    (hOK : MoverOK s mid m) :
    MoverRepository.populatedItemIds s m = m.items := by
  unfold MoverRepository.populatedItemIds
  refine List.filter_eq_self.mpr (fun id hid => ?_)
  exact holderOf_isSome (hOK.2.1 id hid)

theorem CarrierInv_of_WF {s : Store} (hWF : WF s) : CarrierInv s := by
  intro p hp
  have h := hWF.2.2 p hp
  exact ⟨h.2.2.1, h.2.2.2.1, h.2.2.2.2.2⟩

/-! ### Preservation of well-formedness -/

theorem WF_load_success {s : Store} {mid : Nat} {ids : List Nat} {m : MagicMover}
    (hWF : WF s)
    (hm : MoverRepository.findById s mid = some m)
    (hids : ids.Nodup)
    (hall : ∀ id ∈ ids, holderOf s id = some none)
    (hcap : m.currentWeight + heldWeight s ids ≤ m.weightLimit) :
    WF (LogRepository.create
        (MoverRepository.updateMover (ItemRepository.assignToMover s ids mid).1 mid
          { m with items := MoverRepository.addToSet m.items ids
                   currentWeight := m.currentWeight + heldWeight s ids
                   questState := QuestState.loading })
        mid QuestState.loading ids) := by
  obtain ⟨hik, hmk, hmo⟩ := hWF
  have hOK := hmo (mid, m) (mem_of_findById hm)
  have hdisj : ∀ y ∈ ids, y ∉ m.items := by
    intro y hy hmem
    have h1 := hall y hy
    have h2 := hOK.2.1 y hmem
    rw [h1] at h2
    cases h2
  refine ⟨?_, ?_, ?_⟩
  · show ((ItemRepository.assignToMover s ids mid).1.items.map Prod.fst).Nodup
    rw [assignToMover_item_keys]
    exact hik
  · show ((MoverRepository.updateMover (ItemRepository.assignToMover s ids mid).1 mid _).movers.map
      Prod.fst).Nodup
    rw [updateMover_mover_keys]
    exact hmk
  · intro p hp
    have hp' : p ∈ (ItemRepository.assignToMover s ids mid).1.movers.map
        (fun q => (q.1, if q.1 == mid then
          { m with items := MoverRepository.addToSet m.items ids
                   currentWeight := m.currentWeight + heldWeight s ids
                   questState := QuestState.loading } else q.2)) := by
      rw [← updateMover_movers_eq]
      exact hp
    rcases List.mem_map.1 hp' with ⟨q, hq, rfl⟩
    have hqs : q ∈ s.movers := hq
    have hOKq := hmo q hqs
    by_cases hqm : (q.1 == mid) = true
    · rw [if_pos hqm]
      refine ⟨addToSet_nodup hOK.1, ?_, ?_, hcap, hOK.2.2.2.2.1, by intro h; cases h⟩
      · intro id hid
        rcases (addToSet_mem m.items ids id).1 hid with hold | hnew
        · show holderOf (ItemRepository.assignToMover s ids mid).1 id = some (some q.1)
          rw [holderOf_assignToMover_held (hOK.2.1 id hold), hOK.2.1 id hold]
          have : q.1 = mid := by simpa using hqm
          rw [this]
        · show holderOf (ItemRepository.assignToMover s ids mid).1 id = some (some q.1)
          rw [holderOf_assignToMover_mem hnew (hall id hnew)]
          have : q.1 = mid := by simpa using hqm
          rw [this]
      · show m.currentWeight + heldWeight s ids =
          heldWeight (LogRepository.create
            (MoverRepository.updateMover (ItemRepository.assignToMover s ids mid).1 mid _)
            mid QuestState.loading ids) (MoverRepository.addToSet m.items ids)
        rw [heldWeight_create, heldWeight_updateMover, heldWeight_assignToMover,
          addToSet_eq_append hids hdisj]
        unfold heldWeight
        rw [List.map_append, List.sum_append]
        rw [← heldWeight, ← heldWeight, ← hOK.2.2.1]
    · rw [if_neg hqm]
      refine ⟨hOKq.1, ?_, ?_, hOKq.2.2.2.1, hOKq.2.2.2.2.1, hOKq.2.2.2.2.2⟩
      · intro id hid
        show holderOf (ItemRepository.assignToMover s ids mid).1 id = some (some q.1)
        rw [holderOf_assignToMover_held (hOKq.2.1 id hid)]
        exact hOKq.2.1 id hid
      · show q.2.currentWeight = heldWeight _ q.2.items
        rw [heldWeight_create, heldWeight_updateMover, heldWeight_assignToMover]
        exact hOKq.2.2.1

theorem WF_loadItems (s : Store) (mid : Nat) (ids : List Nat) (hWF : WF s) :
    WF (MoverService.loadItems s mid ids).1 := by
  cases hm : MoverRepository.findById s mid with
  | none => rw [loadItems_not_found hm]; exact hWF
  | some m =>
    by_cases hstate : m.questState = QuestState.onMission
    · rw [loadItems_on_mission hm hstate]; exact hWF
    · by_cases hids : ids.Nodup
      · by_cases hall : ∀ id ∈ ids, holderOf s id = some none
        · by_cases hcap : m.currentWeight + heldWeight s ids ≤ m.weightLimit
          · rw [loadItems_success_eq hWF.1 hm hstate hids hall hcap]
            exact WF_load_success hWF hm hids hall hcap
          · rw [loadItems_capacity_fail_eq hWF.1 hm hstate hids hall hcap]
            show WF (ItemRepository.unassignItems (ItemRepository.assignToMover s ids mid).1 ids).1
            rw [unassign_assign_cancel hWF.1 hall]
            exact hWF
        · have hlen : (ItemRepository.findAvailableByIds s ids).length ≠ ids.length := by
            intro heq
            exact hall ((findAvailableByIds_length_eq_iff hWF.1 hids).1 heq)
          rw [loadItems_precheck_fail_store hm hstate hids hlen]
          exact hWF
      · rw [loadItems_duplicate hm hstate hids]; exact hWF

theorem WF_start_success {s : Store} {mid : Nat} {m : MagicMover}
    (hWF : WF s)
    (hm : MoverRepository.findById s mid = some m) :
    WF (LogRepository.create
        (MoverRepository.updateMover s mid { m with questState := QuestState.onMission })
        mid QuestState.onMission (MoverRepository.populatedItemIds s m)) := by
  obtain ⟨hik, hmk, hmo⟩ := hWF
  have hOK := hmo (mid, m) (mem_of_findById hm)
  refine ⟨hik, ?_, ?_⟩
  · show ((MoverRepository.updateMover s mid _).movers.map Prod.fst).Nodup
    rw [updateMover_mover_keys]
    exact hmk
  · intro p hp
    have hp' : p ∈ s.movers.map
        (fun q => (q.1, if q.1 == mid then
          { m with questState := QuestState.onMission } else q.2)) := by
      rw [← updateMover_movers_eq]
      exact hp
    rcases List.mem_map.1 hp' with ⟨q, hq, rfl⟩
    have hOKq := hmo q hq
    by_cases hqm : (q.1 == mid) = true
    · rw [if_pos hqm]
      have hq1 : q.1 = mid := by simpa using hqm
      refine ⟨hOK.1, ?_, hOK.2.2.1, hOK.2.2.2.1, hOK.2.2.2.2.1, by intro h; cases h⟩
      intro id hid
      rw [hq1]
      exact hOK.2.1 id hid
    · rw [if_neg hqm]
      exact hOKq

theorem WF_startMission (s : Store) (mid : Nat) (hWF : WF s) :
    WF (MoverService.startMission s mid).1 := by
  cases hm : MoverRepository.findById s mid with
  | none => rw [startMission_not_found hm]; exact hWF
  | some m =>
    by_cases h1 : m.questState = QuestState.onMission
    · rw [startMission_on_mission hm h1]; exact hWF
    · by_cases h2 : m.questState = QuestState.loading
      · by_cases h3 : MoverRepository.populatedItemIds s m = []
        · rw [startMission_no_items hm h2 h3]; exact hWF
        · rw [startMission_success_eq hm h2 h3]
          exact WF_start_success hWF hm
      · rw [startMission_not_loading hm h1 h2]; exact hWF

theorem WF_end_success {s : Store} {mid : Nat} {m : MagicMover}
    (hWF : WF s)
    (hm : MoverRepository.findById s mid = some m) :
    WF (LogRepository.create
        (MoverRepository.updateMover (ItemRepository.unassignFromMover s mid).1 mid
          { m with items := []
                   questState := QuestState.resting
                   currentWeight := 0
                   missionsCompleted := m.missionsCompleted + 1 })
        mid QuestState.resting []) := by
  obtain ⟨hik, hmk, hmo⟩ := hWF
  have hOK := hmo (mid, m) (mem_of_findById hm)
  refine ⟨?_, ?_, ?_⟩
  · show ((ItemRepository.unassignFromMover s mid).1.items.map Prod.fst).Nodup
    rw [unassignFromMover_item_keys]
    exact hik
  · show ((MoverRepository.updateMover (ItemRepository.unassignFromMover s mid).1 mid _).movers.map
      Prod.fst).Nodup
    rw [updateMover_mover_keys]
    exact hmk
  · intro p hp
    have hp' : p ∈ (ItemRepository.unassignFromMover s mid).1.movers.map
        (fun q => (q.1, if q.1 == mid then
          { m with items := ([] : List Nat)
                   questState := QuestState.resting
                   currentWeight := 0
                   missionsCompleted := m.missionsCompleted + 1 } else q.2)) := by
      rw [← updateMover_movers_eq]
      exact hp
    rcases List.mem_map.1 hp' with ⟨q, hq, rfl⟩
    have hqs : q ∈ s.movers := hq
    have hOKq := hmo q hqs
    by_cases hqm : (q.1 == mid) = true
    · rw [if_pos hqm]
      refine ⟨List.nodup_nil, ?_, ?_, hOK.2.2.2.2.1, hOK.2.2.2.2.1, fun _ => rfl⟩
      · intro id hid
        cases hid
      · show (0 : Int) = heldWeight _ ([] : List Nat)
        rfl
    · rw [if_neg hqm]
      have hq1 : q.1 ≠ mid := by simpa using hqm
      refine ⟨hOKq.1, ?_, ?_, hOKq.2.2.2.1, hOKq.2.2.2.2.1, hOKq.2.2.2.2.2⟩
      · intro id hid
        show holderOf (ItemRepository.unassignFromMover s mid).1 id = some (some q.1)
        rw [holderOf_unassignFromMover, hOKq.2.1 id hid]
        have : some q.1 ≠ some mid := by
          intro h
          exact hq1 (by injection h)
        simp [this]
      · show q.2.currentWeight = heldWeight _ q.2.items
        rw [heldWeight_create, heldWeight_updateMover, heldWeight_unassignFromMover]
        exact hOKq.2.2.1

theorem WF_endMission (s : Store) (mid : Nat) (hWF : WF s) :
    WF (MoverService.endMission s mid).1 := by
  cases hm : MoverRepository.findById s mid with
  | none => rw [endMission_not_found hm]; exact hWF
  | some m =>
    by_cases hstate : m.questState = QuestState.onMission
    · have hOK := WF_moverOK hWF hm
      have hpop := populatedItemIds_eq_of_moverOK hOK
      have hex : ∀ id ∈ m.items, (itemById s id).isSome :=
        fun id hid => holderOf_isSome (hOK.2.1 id hid)
      have hlen : (ItemRepository.findByIds s (MoverRepository.populatedItemIds s m)).length =
          (MoverRepository.populatedItemIds s m).length := by
        rw [hpop]
        exact (findByIds_length_eq_iff hWF.1 hOK.1).2 hex
      rw [endMission_success_eq hm hstate (fun hc => hc.2 hlen)]
      exact WF_end_success hWF hm
    · rw [endMission_not_on_mission hm hstate]; exact hWF

/-! ### The claims -/

/-- Claim C1: on a successful endMission the RESTING Transition Record is
supposed to carry the pre-clear items snapshot (non-empty whenever items were
held). The code instead calls `logRepository.create(moverId, RESTING)` with no
item list, so the record's snapshot is the empty default: at the failing input
the carrier holds item 10, endMission succeeds, and the appended RESTING
record has an empty `items` snapshot. -/
theorem c1_resting_record_snapshot_is_empty :
    (MoverRepository.findById c1Store 1).map MagicMover.items = some [10] ∧
    (MoverService.endMission c1Store 1).2 =
      .ok { weightLimit := 100, currentWeight := 0, questState := QuestState.resting,
            items := [], missionsCompleted := 1 } ∧
    (MoverService.endMission c1Store 1).1.logs =
      [{ moverId := 1, action := QuestState.resting, items := [] }] := by
  decide

/-- Claim C2: the spec demands that of concurrent `load` calls overlapping on
an item id at most one observes the id as successfully claimed, the others
Conflict or NotFound. Under the schedule `c2Sched` the failed call's rollback
(`unassignItems`, which has no holder filter) releases item 10 although carrier
1 had claimed it, letting carrier 3 claim it again: calls 1 and 3 — both
overlapping on item 10 — both finish successfully, and the final committed
store has both carriers holding item 10. -/
theorem c2_two_loads_claim_same_item :
    ((runSchedule c2Store c2Threads c2Sched).2.map (fun t => t.pc.isSuccess)) =
      [true, false, true] ∧
    ((runSchedule c2Store c2Threads c2Sched).2.map (fun t => t.itemIds.contains 10)) =
      [true, true, true] ∧
    (MoverRepository.findById (runSchedule c2Store c2Threads c2Sched).1 1).map
      MagicMover.items = some [10] ∧
    (MoverRepository.findById (runSchedule c2Store c2Threads c2Sched).1 3).map
      MagicMover.items = some [10] := by
  decide

/-- Claim C3: when load passes the atomic claim but the capacity-checked
commit fails (`currentLoad + Σ weight > capacity`), the call returns
BadRequest and the claim has been rolled back: afterwards every requested id
is unheld. -/
theorem c3_capacity_fail_rolls_back (s : Store) (mid : Nat) (ids : List Nat)
    (m : MagicMover)
    (hnd : (s.items.map Prod.fst).Nodup)
    (hm : MoverRepository.findById s mid = some m)
    (hstate : m.questState ≠ QuestState.onMission)
    (hids : ids.Nodup)
    (hall : ∀ id ∈ ids, holderOf s id = some none)
    (hover : m.weightLimit < m.currentWeight + heldWeight s ids) :
    (MoverService.loadItems s mid ids).2 = .error .badRequest ∧
    ∀ id ∈ ids, holderOf (MoverService.loadItems s mid ids).1 id = some none := by
  have hcap := not_le.2 hover
  rw [loadItems_capacity_fail_eq hnd hm hstate hids hall hcap]
  refine ⟨rfl, fun id hid => ?_⟩
  show holderOf
    (ItemRepository.unassignItems (ItemRepository.assignToMover s ids mid).1 ids).1 id =
      some none
  rw [unassign_assign_cancel hnd hall]
  exact hall id hid

/-- Claim C4: the committed-state invariant (`currentLoad = Σ weight(heldItems)`,
`currentLoad ≤ capacity`, `heldItems = []` when RESTING) is preserved by every
operation: load, startMission and endMission. -/
theorem c4_carrier_invariant_preserved (s : Store) (mid : Nat) (ids : List Nat)
    (hWF : WF s) :
    CarrierInv (MoverService.loadItems s mid ids).1 ∧
    CarrierInv (MoverService.startMission s mid).1 ∧
    CarrierInv (MoverService.endMission s mid).1 :=
  ⟨CarrierInv_of_WF (WF_loadItems s mid ids hWF),
   CarrierInv_of_WF (WF_startMission s mid hWF),
   CarrierInv_of_WF (WF_endMission s mid hWF)⟩

/-- Claim C5: a successful load puts the carrier in LOADING, adds exactly the
summed weight of the requested items to `currentLoad`, adds exactly the
requested ids to `heldItems` by set union, and appends exactly one LOADING
Transition Record whose snapshot is the newly loaded ids only. -/
theorem c5_load_success_effects (s : Store) (mid : Nat) (ids : List Nat)
    (m : MagicMover)
    (hWF : WF s)
    (hm : MoverRepository.findById s mid = some m)
    (hstate : m.questState ≠ QuestState.onMission)
    (hids : ids.Nodup)
    (hall : ∀ id ∈ ids, holderOf s id = some none)
    (hcap : m.currentWeight + heldWeight s ids ≤ m.weightLimit) :
    ∃ m', (MoverService.loadItems s mid ids).2 = .ok m' ∧
      m'.questState = QuestState.loading ∧
      m'.currentWeight = m.currentWeight + heldWeight s ids ∧
      (∀ x, x ∈ m'.items ↔ x ∈ m.items ∨ x ∈ ids) ∧
      MoverRepository.findById (MoverService.loadItems s mid ids).1 mid = some m' ∧
      (MoverService.loadItems s mid ids).1.logs =
        s.logs ++ [{ moverId := mid, action := QuestState.loading, items := ids }] := by
  rw [loadItems_success_eq hWF.1 hm hstate hids hall hcap]
  refine ⟨_, rfl, rfl, rfl, fun x => addToSet_mem m.items ids x, ?_, rfl⟩
  have h1 : MoverRepository.findById (ItemRepository.assignToMover s ids mid).1 mid =
      some m := by
    rw [findById_assignToMover]
    exact hm
  exact findById_updateMover_self h1

/-- Claim C6: for an existing carrier, startMission succeeds iff the state is
LOADING with non-empty heldItems; from ON_MISSION, RESTING, or LOADING with no
items it fails with BadRequest; on success the state becomes ON_MISSION with
heldItems and currentLoad unchanged. -/
theorem c6_startMission_characterization (s : Store) (mid : Nat) (m : MagicMover)
    (hWF : WF s)
    (hm : MoverRepository.findById s mid = some m) :
    ((∃ m', (MoverService.startMission s mid).2 = .ok m') ↔
      (m.questState = QuestState.loading ∧ m.items ≠ [])) ∧
    (m.questState = QuestState.onMission →
      MoverService.startMission s mid = (s, .error .badRequest)) ∧
    ((m.questState = QuestState.resting ∨
        (m.questState = QuestState.loading ∧ m.items = [])) →
      MoverService.startMission s mid = (s, .error .badRequest)) ∧
    (∀ m', (MoverService.startMission s mid).2 = .ok m' →
      m'.questState = QuestState.onMission ∧ m'.items = m.items ∧
      m'.currentWeight = m.currentWeight ∧
      MoverRepository.findById (MoverService.startMission s mid).1 mid = some m') := by
  have hOK := WF_moverOK hWF hm
  have hpop := populatedItemIds_eq_of_moverOK hOK
  cases hqs : m.questState with
  | onMission =>
    rw [startMission_on_mission hm hqs]
    refine ⟨⟨?_, ?_⟩, fun _ => rfl, ?_, ?_⟩
    · rintro ⟨m', hm'⟩; cases hm'
    · rintro ⟨hl, _⟩; cases hl
    · rintro (hr | ⟨hl, _⟩)
      · cases hr
      · cases hl
    · rintro m' hm'; cases hm'
  | resting =>
    rw [startMission_not_loading hm (by rw [hqs]; intro h; cases h)
      (by rw [hqs]; intro h; cases h)]
    refine ⟨⟨?_, ?_⟩, ?_, fun _ => rfl, ?_⟩
    · rintro ⟨m', hm'⟩; cases hm'
    · rintro ⟨hl, _⟩; cases hl
    · intro h; cases h
    · rintro m' hm'; cases hm'
  | loading =>
    by_cases hempty : m.items = []
    · have hpop0 : MoverRepository.populatedItemIds s m = [] := by rw [hpop, hempty]
      rw [startMission_no_items hm hqs hpop0]
      refine ⟨⟨?_, ?_⟩, ?_, fun _ => rfl, ?_⟩
      · rintro ⟨m', hm'⟩; cases hm'
      · rintro ⟨_, hne⟩; exact absurd hempty hne
      · intro h; cases h
      · rintro m' hm'; cases hm'
    · have hpop0 : MoverRepository.populatedItemIds s m ≠ [] := by rw [hpop]; exact hempty
      rw [startMission_success_eq hm hqs hpop0]
      refine ⟨⟨fun _ => ⟨rfl, hempty⟩, fun _ => ⟨_, rfl⟩⟩, ?_, ?_, ?_⟩
      · intro h; cases h
      · rintro (hr | ⟨_, he⟩)
        · cases hr
        · exact absurd he hempty
      · rintro m' hm'
        have hm2 : Except.ok ({ m with questState := QuestState.onMission }) =
            (Except.ok m' : Except AppError MagicMover) := hm'
        injection hm2 with h2
        subst h2
        exact ⟨rfl, rfl, rfl, findById_updateMover_self hm⟩

/-- Claim C7: a successful endMission (carrier exists, state ON_MISSION)
releases every previously held item (holder becomes null, available for a
later claim) and resets the carrier: heldItems empty, currentLoad 0, state
RESTING, missionsCompleted incremented by one. -/
theorem c7_endMission_effects (s : Store) (mid : Nat) (m : MagicMover)
    (hWF : WF s)
    (hm : MoverRepository.findById s mid = some m)
    (hstate : m.questState = QuestState.onMission) :
    (∃ m', (MoverService.endMission s mid).2 = .ok m' ∧
      m'.items = [] ∧ m'.currentWeight = 0 ∧
      m'.questState = QuestState.resting ∧
      m'.missionsCompleted = m.missionsCompleted + 1 ∧
      MoverRepository.findById (MoverService.endMission s mid).1 mid = some m') ∧
    (∀ id ∈ m.items, holderOf (MoverService.endMission s mid).1 id = some none) ∧
    (ItemRepository.findAvailableByIds (MoverService.endMission s mid).1 m.items).length =
      m.items.length := by
  have hOK := WF_moverOK hWF hm
  have hpop := populatedItemIds_eq_of_moverOK hOK
  have hex : ∀ id ∈ m.items, (itemById s id).isSome :=
    fun id hid => holderOf_isSome (hOK.2.1 id hid)
  have hlen : (ItemRepository.findByIds s (MoverRepository.populatedItemIds s m)).length =
      (MoverRepository.populatedItemIds s m).length := by
    rw [hpop]
    exact (findByIds_length_eq_iff hWF.1 hOK.1).2 hex
  rw [endMission_success_eq hm hstate (fun hc => hc.2 hlen)]
  have hhold : ∀ id ∈ m.items,
      holderOf (ItemRepository.unassignFromMover s mid).1 id = some none := by
    intro id hid
    rw [holderOf_unassignFromMover, hOK.2.1 id hid]
    simp
  refine ⟨⟨_, rfl, rfl, rfl, rfl, rfl, ?_⟩, fun id hid => hhold id hid, ?_⟩
  · exact findById_updateMover_self (by rw [findById_unassignFromMover]; exact hm)
  · have hnd1 : ((ItemRepository.unassignFromMover s mid).1.items.map Prod.fst).Nodup := by
      rw [unassignFromMover_item_keys]
      exact hWF.1
    exact (findAvailableByIds_length_eq_iff hnd1 hOK.1).2 hhold

/-- Claim C8 counterexample: the claim says a load request with a repeated id
always yields UnprocessableEntity, with the duplicate detected before the
carrier is looked up or its state examined. At the concrete input — carrier 1
ON_MISSION, request `[10, 10]` — the code returns BadRequest (the mission-state
check runs first), not UnprocessableEntity. -/
theorem c8_duplicate_counterexample :
    MoverService.loadItems c8Store 1 [10, 10] = (c8Store, .error .badRequest) ∧
    AppError.badRequest ≠ AppError.unprocessableEntity := by
  decide

/-- Claim C8 (amended): a load whose itemIds repeat an id is rejected with
UnprocessableEntity and no state change, provided the carrier exists and is
not ON_MISSION — the duplicate check runs after the carrier lookup and
mission-state check (whose errors take precedence) but before any item-store
access. -/
theorem c8_duplicate_rejected_after_state_check (s : Store) (mid : Nat)
    (ids : List Nat) (m : MagicMover)
    (hm : MoverRepository.findById s mid = some m)
    (hstate : m.questState ≠ QuestState.onMission)
    (hdup : ¬ ids.Nodup) :
    MoverService.loadItems s mid ids = (s, .error .unprocessableEntity) :=
  loadItems_duplicate hm hstate hdup

/-- Claim C9: in load, a missing item id yields NotFound (taking precedence),
and when every id exists but at least one item is already held — possibly by
the requesting carrier itself — the result is Conflict. -/
theorem c9_notFound_over_conflict (s : Store) (mid : Nat) (ids : List Nat)
    (m : MagicMover)
    (hnd : (s.items.map Prod.fst).Nodup)
    (hm : MoverRepository.findById s mid = some m)
    (hstate : m.questState ≠ QuestState.onMission)
    (hids : ids.Nodup) :
    ((∃ id ∈ ids, itemById s id = none) →
      MoverService.loadItems s mid ids = (s, .error .notFound)) ∧
    ((∀ id ∈ ids, (itemById s id).isSome) →
      (∃ id ∈ ids, holderOf s id ≠ some none) →
      MoverService.loadItems s mid ids = (s, .error .conflict)) :=
  ⟨fun hmiss => loadItems_missing hnd hm hstate hids hmiss,
   fun hex hheld => loadItems_conflict hnd hm hstate hids hex hheld⟩

/-- Claim C10: load with an empty itemIds list on an existing carrier not
ON_MISSION succeeds: the state is set to LOADING, currentLoad and heldItems
are unchanged, the items collection is untouched, and one LOADING Transition
Record with an empty snapshot is appended — the engine does not enforce a
non-empty list. -/
theorem c10_empty_load_succeeds (s : Store) (mid : Nat) (m : MagicMover)
    (hWF : WF s)
    (hm : MoverRepository.findById s mid = some m)
    (hstate : m.questState ≠ QuestState.onMission) :
    ∃ m', (MoverService.loadItems s mid []).2 = .ok m' ∧
      m'.questState = QuestState.loading ∧
      m'.currentWeight = m.currentWeight ∧
      m'.items = m.items ∧
      (MoverService.loadItems s mid []).1.items = s.items ∧
      (MoverService.loadItems s mid []).1.logs =
        s.logs ++ [{ moverId := mid, action := QuestState.loading, items := [] }] := by
  have hOK := WF_moverOK hWF hm
  have hcap : m.currentWeight + heldWeight s [] ≤ m.weightLimit := by
    show m.currentWeight + 0 ≤ m.weightLimit
    rw [add_zero]
    exact hOK.2.2.2.1
  rw [loadItems_success_eq hWF.1 hm hstate List.nodup_nil
    (fun id hid => absurd hid (List.not_mem_nil id)) hcap]
  refine ⟨_, rfl, rfl, ?_, rfl, ?_, rfl⟩
  · show m.currentWeight + heldWeight s [] = m.currentWeight
    show m.currentWeight + 0 = m.currentWeight
    rw [add_zero]
  · show (ItemRepository.assignToMover s [] mid).1.items = s.items
    rw [assignToMover_items_eq]
    refine Eq.trans (List.map_eq_map_iff.mpr (fun p hp => ?_)) (List.map_id s.items)
    rfl

/-- Witness for C3: carrier 1 (capacity 100, empty) requests item 12 of
weight 200; the call returns BadRequest and item 12 ends up unheld. -/
theorem c3_capacity_fail_rolls_back_witness :
    ((wLoadStore.items.map Prod.fst).Nodup ∧
     MoverRepository.findById wLoadStore 1 = some ⟨100, 0, QuestState.resting, [], 0⟩ ∧
     (QuestState.resting ≠ QuestState.onMission) ∧
     ([12] : List Nat).Nodup ∧
     (∀ id ∈ ([12] : List Nat), holderOf wLoadStore id = some none) ∧
     (100 : Int) < 0 + heldWeight wLoadStore [12]) ∧
    ((MoverService.loadItems wLoadStore 1 [12]).2 = .error .badRequest ∧
     ∀ id ∈ ([12] : List Nat),
       holderOf (MoverService.loadItems wLoadStore 1 [12]).1 id = some none) :=
  ⟨⟨by decide, by decide, by decide, by decide, by decide, by decide⟩,
   c3_capacity_fail_rolls_back wLoadStore 1 [12] ⟨100, 0, QuestState.resting, [], 0⟩
     (by decide) (by decide) (by decide) (by decide) (by decide) (by decide)⟩

/-- Witness for C4 at a concrete well-formed store. -/
theorem c4_carrier_invariant_preserved_witness :
    WF wLoadStore ∧
    (CarrierInv (MoverService.loadItems wLoadStore 1 [10, 11]).1 ∧
     CarrierInv (MoverService.startMission wLoadStore 1).1 ∧
     CarrierInv (MoverService.endMission wLoadStore 1).1) :=
  ⟨by decide, c4_carrier_invariant_preserved wLoadStore 1 [10, 11] (by decide)⟩

/-- Witness for C5: loading items 10 and 11 (weights 15 and 20) onto the
resting carrier 1 of capacity 100. -/
theorem c5_load_success_effects_witness :
    (WF wLoadStore ∧
     MoverRepository.findById wLoadStore 1 = some ⟨100, 0, QuestState.resting, [], 0⟩ ∧
     (QuestState.resting ≠ QuestState.onMission) ∧
     ([10, 11] : List Nat).Nodup ∧
     (∀ id ∈ ([10, 11] : List Nat), holderOf wLoadStore id = some none) ∧
     (0 : Int) + heldWeight wLoadStore [10, 11] ≤ 100) ∧
    (∃ m', (MoverService.loadItems wLoadStore 1 [10, 11]).2 = .ok m' ∧
      m'.questState = QuestState.loading ∧
      m'.currentWeight = 0 + heldWeight wLoadStore [10, 11] ∧
      (∀ x, x ∈ m'.items ↔ x ∈ ([] : List Nat) ∨ x ∈ ([10, 11] : List Nat)) ∧
      MoverRepository.findById (MoverService.loadItems wLoadStore 1 [10, 11]).1 1 = some m' ∧
      (MoverService.loadItems wLoadStore 1 [10, 11]).1.logs =
        wLoadStore.logs ++
          [{ moverId := 1, action := QuestState.loading, items := [10, 11] }]) :=
  ⟨⟨by decide, by decide, by decide, by decide, by decide, by decide⟩,
   c5_load_success_effects wLoadStore 1 [10, 11] ⟨100, 0, QuestState.resting, [], 0⟩
     (by decide) (by decide) (by decide) (by decide) (by decide) (by decide)⟩

/-- Witness for C6: carrier 1 is LOADING holding item 10, so startMission
succeeds. -/
theorem c6_startMission_characterization_witness :
    (WF wStartStore ∧
     MoverRepository.findById wStartStore 1 =
       some ⟨100, 15, QuestState.loading, [10], 0⟩) ∧
    (∃ m', (MoverService.startMission wStartStore 1).2 = .ok m') :=
  ⟨⟨by decide, by decide⟩,
   ((c6_startMission_characterization wStartStore 1
      ⟨100, 15, QuestState.loading, [10], 0⟩ (by decide) (by decide)).1).2
     ⟨rfl, by decide⟩⟩

/-- Witness for C7: carrier 1 is ON_MISSION holding items 10 and 11. -/
theorem c7_endMission_effects_witness :
    (WF wEndStore ∧
     MoverRepository.findById wEndStore 1 =
       some ⟨100, 35, QuestState.onMission, [10, 11], 0⟩ ∧
     (QuestState.onMission = QuestState.onMission)) ∧
    ((∃ m', (MoverService.endMission wEndStore 1).2 = .ok m' ∧
      m'.items = [] ∧ m'.currentWeight = 0 ∧
      m'.questState = QuestState.resting ∧
      m'.missionsCompleted = 0 + 1 ∧
      MoverRepository.findById (MoverService.endMission wEndStore 1).1 1 = some m') ∧
    (∀ id ∈ ([10, 11] : List Nat),
      holderOf (MoverService.endMission wEndStore 1).1 id = some none) ∧
    (ItemRepository.findAvailableByIds (MoverService.endMission wEndStore 1).1
      [10, 11]).length = ([10, 11] : List Nat).length) :=
  ⟨⟨by decide, by decide, rfl⟩,
   c7_endMission_effects wEndStore 1 ⟨100, 35, QuestState.onMission, [10, 11], 0⟩
     (by decide) (by decide) (by decide)⟩

/-- Witness for C8 (amended): duplicate request `[10, 10]` against the resting
carrier 1 yields UnprocessableEntity with the store unchanged. -/
theorem c8_duplicate_rejected_witness :
    (MoverRepository.findById wLoadStore 1 = some ⟨100, 0, QuestState.resting, [], 0⟩ ∧
     (QuestState.resting ≠ QuestState.onMission) ∧
     ¬ ([10, 10] : List Nat).Nodup) ∧
    MoverService.loadItems wLoadStore 1 [10, 10] =
      (wLoadStore, .error .unprocessableEntity) :=
  ⟨⟨by decide, by decide, by decide⟩,
   c8_duplicate_rejected_after_state_check wLoadStore 1 [10, 10]
     ⟨100, 0, QuestState.resting, [], 0⟩ (by decide) (by decide) (by decide)⟩

/-- Witness for C9: id 99 does not exist (NotFound precedence over the held
item 11) and, when all ids exist, the held item 11 yields Conflict. -/
theorem c9_notFound_over_conflict_witness :
    ((wNineStore.items.map Prod.fst).Nodup ∧
     MoverRepository.findById wNineStore 1 = some ⟨100, 0, QuestState.resting, [], 0⟩ ∧
     ([10, 99] : List Nat).Nodup ∧ ([10, 11] : List Nat).Nodup ∧
     (∃ id ∈ ([10, 99] : List Nat), itemById wNineStore id = none) ∧
     (∀ id ∈ ([10, 11] : List Nat), (itemById wNineStore id).isSome) ∧
     (∃ id ∈ ([10, 11] : List Nat), holderOf wNineStore id ≠ some none)) ∧
    (MoverService.loadItems wNineStore 1 [10, 99] = (wNineStore, .error .notFound) ∧
     MoverService.loadItems wNineStore 1 [10, 11] = (wNineStore, .error .conflict)) :=
  ⟨⟨by decide, by decide, by decide, by decide, by decide, by decide, by decide⟩,
   ⟨(c9_notFound_over_conflict wNineStore 1 [10, 99]
       ⟨100, 0, QuestState.resting, [], 0⟩ (by decide) (by decide) (by decide)
       (by decide)).1 (by decide),
    (c9_notFound_over_conflict wNineStore 1 [10, 11]
       ⟨100, 0, QuestState.resting, [], 0⟩ (by decide) (by decide) (by decide)
       (by decide)).2 (by decide) (by decide)⟩⟩

/-- Witness for C10: an empty load on the resting carrier 1 succeeds and only
flips the state to LOADING, appending one empty-snapshot LOADING record. -/
theorem c10_empty_load_succeeds_witness :
    (WF wLoadStore ∧
     MoverRepository.findById wLoadStore 1 = some ⟨100, 0, QuestState.resting, [], 0⟩ ∧
     (QuestState.resting ≠ QuestState.onMission)) ∧
    (∃ m', (MoverService.loadItems wLoadStore 1 []).2 = .ok m' ∧
      m'.questState = QuestState.loading ∧
      m'.currentWeight = 0 ∧
      m'.items = [] ∧
      (MoverService.loadItems wLoadStore 1 []).1.items = wLoadStore.items ∧
      (MoverService.loadItems wLoadStore 1 []).1.logs =
        wLoadStore.logs ++
          [{ moverId := 1, action := QuestState.loading, items := [] }]) :=
  ⟨⟨by decide, by decide, by decide⟩,
   c10_empty_load_succeeds wLoadStore 1 ⟨100, 0, QuestState.resting, [], 0⟩
     (by decide) (by decide) (by decide)⟩
